import Mathlib

/-!
Shallow embedding of the referral-reward core of `bot.py` (class
`CashPoinntBot`): the referral validation / anti-abuse state machine and
reward settlement.

Modelling conventions:
* Timestamps are integers (seconds); `get_current_time()` becomes an explicit
  `now : Time` argument supplied per top-level call.
* Firestore collections (`users`, `referrals`, `earnings`) become lists; a
  `where(...).limit(1)` query becomes `List.find?`, a `.reference.update`
  becomes an in-place update of the first matching element, and `.add` appends
  with a fresh document id drawn from `nextId`.
* The Telegram membership oracle (`context.bot.get_chat_member`) is external
  and not cached: each call may observe a different answer, so an invocation
  consumes responses from a list `List OracleResp`, one per membership call.
  `none` models the call raising an exception; `some s` models a returned
  chat-member status string.
* The functions return plain booleans exactly as the Python does; rejection
  "reasons" exist only in logs, so theorems characterise branches by the
  returned boolean together with the state mutation performed.
* Write-only bookkeeping that no modelled code path reads back
  (`username`/display fields, `is_verified`, `is_banned`, `last_active`, the
  separate `referralCodes` usage counter whose update failure is swallowed) is
  omitted; `updated_at`, `group_join_date` and `last_rejoin_date` are kept.
-/

namespace CashBot

/-- Timestamps in seconds (model of timezone-aware datetimes). -/
abbrev Time := Int

/-- `timedelta(hours = n)` in seconds. -/
def hours (n : Int) : Int := n * 3600

/-- `timedelta(days = n)` in seconds. -/
def days (n : Int) : Int := n * 86400

/-- `REFERRAL_REWARD = 2  # 2 Taka per successful referral`. -/
def REFERRAL_REWARD : Int := 2

/-- One user document of the `users` collection. -/
structure User where
  telegram_id : String
  balance : Int
  total_earnings : Int
  total_referrals : Int
  referral_code : String
  created_at : Time
  updated_at : Option Time
deriving DecidableEq

/-- One referral document of the `referrals` collection.  `id` models the
Firestore document id (`referral_doc.id`). -/
structure Referral where
  id : Nat
  referrer_id : String
  referred_id : String
  referral_code : String
  status : String
  created_at : Time
  group_join_verified : Bool
  rejoin_count : Nat
  reward_given : Bool
  last_rejoin_date : Option Time
  group_join_date : Option Time
  updated_at : Option Time
deriving DecidableEq

/-- One earnings document of the `earnings` collection. -/
structure Earning where
  user_id : String
  amount : Int
  type : String
  description : String
  referral_id : Nat
  created_at : Time
deriving DecidableEq

/-- The Firestore state touched by the referral core. `nextId` supplies fresh
referral document ids. -/
structure DB where
  users : List User
  referrals : List Referral
  earnings : List Earning
  nextId : Nat
deriving DecidableEq

/-- One response of the external membership oracle: `none` models
`get_chat_member` raising, `some s` models it returning status `s`. -/
abbrev OracleResp := Option String

/-- Pop the next oracle response; an exhausted stream behaves like a failing
call. -/
def nextResp : List OracleResp → OracleResp × List OracleResp
  | [] => (none, [])
  | r :: rs => (r, rs)

/-- `chat_member.status in ['member', 'administrator', 'creator']`. -/
def memberStatuses : List String := ["member", "administrator", "creator"]

/-- `check_group_membership`: `True` iff the oracle call succeeds and returns
one of the accepted statuses; an exception yields `False`. -/
def check_group_membership (resp : OracleResp) : Bool :=
  match resp with
  | none => false
  | some status => memberStatuses.contains status

/-- `generate_referral_code`: `"CP" + str(user_id)`. -/
def generate_referral_code (telegram_id : String) : String :=
  "CP" ++ telegram_id

/-- Predicate of the exact-pair query
`where('referred_id','==',referred_id).where('referrer_id','==',referrer_id)`. -/
def pairPred (referrer_id referred_id : String) (r : Referral) : Bool :=
  r.referred_id == referred_id && r.referrer_id == referrer_id

/-- Predicate of the by-candidate query `where('referred_id','==',referred_id)`. -/
def referredPred (referred_id : String) (r : Referral) : Bool :=
  r.referred_id == referred_id

/-- Predicate of the pending query
`where('referred_id','==',user_id).where('status','==','pending_group_join')`. -/
def pendingPred (referred_id : String) (r : Referral) : Bool :=
  r.referred_id == referred_id && r.status == "pending_group_join"

/-- Predicate of the user query `where('telegram_id','==',tid)`. -/
def userPred (tid : String) (u : User) : Bool :=
  u.telegram_id == tid

/-- `users.where('telegram_id','==',tid).limit(1)`. -/
def findUser (db : DB) (tid : String) : Option User :=
  db.users.find? (userPred tid)

/-- `referrals.where('referred_id','==',c).where('referrer_id','==',r).limit(1)`. -/
def findReferralByPair (db : DB) (referrer_id referred_id : String) : Option Referral :=
  db.referrals.find? (pairPred referrer_id referred_id)

/-- `referrals.where('referred_id','==',c).limit(1)`. -/
def findReferralByReferred (db : DB) (referred_id : String) : Option Referral :=
  db.referrals.find? (referredPred referred_id)

/-- `referrals.where('referred_id','==',c).where('status','==','pending_group_join').limit(1)`. -/
def findPendingReferral (db : DB) (referred_id : String) : Option Referral :=
  db.referrals.find? (pendingPred referred_id)

/-- `docs[0].reference.update(...)`: update the first element matching the
query predicate, leaving the rest untouched. -/
def updateFirst {α : Type} (p : α → Bool) (f : α → α) : List α → List α
  | [] => []
  | x :: xs => if p x then f x :: xs else x :: updateFirst p f xs

/-- The duplicate-pair update of `process_referral`: bump `rejoin_count`,
stamp `last_rejoin_date` and `updated_at`. -/
def bumpRejoin (now : Time) (r : Referral) : Referral :=
  { r with rejoin_count := r.rejoin_count + 1, last_rejoin_date := some now,
           updated_at := some now }

/-- The rejoin update of `detect_rejoin_attempt`: bump `rejoin_count`, stamp
`last_rejoin_date`, set `status := 'rejoined'`. -/
def markRejoined (now : Time) (r : Referral) : Referral :=
  { r with rejoin_count := r.rejoin_count + 1, last_rejoin_date := some now,
           status := "rejoined", updated_at := some now }

/-- The guard-4 update of `verify_group_join_and_reward`: transition to
`'existing_member_no_reward'` with `group_join_verified = True` and
`reward_given = False`. -/
def markExistingMember (now : Time) (r : Referral) : Referral :=
  { r with status := "existing_member_no_reward", group_join_verified := true,
           group_join_date := some now, reward_given := false,
           updated_at := some now }

/-- The settlement update of `verify_group_join_and_reward`: transition to
`'verified'` with `group_join_verified = True` and `reward_given = True`. -/
def markVerified (now : Time) (r : Referral) : Referral :=
  { r with status := "verified", group_join_verified := true,
           group_join_date := some now, reward_given := true,
           updated_at := some now }

/-- The referrer credit: `balance += REFERRAL_REWARD`,
`total_earnings += REFERRAL_REWARD`, `total_referrals += 1`. -/
def creditReferrer (now : Time) (u : User) : User :=
  { u with balance := u.balance + REFERRAL_REWARD,
           total_earnings := u.total_earnings + REFERRAL_REWARD,
           total_referrals := u.total_referrals + 1, updated_at := some now }

/-- The `referral_data` document inserted by `process_referral`. -/
def newReferral (now : Time) (id : Nat)
    (referrer_id referred_id referral_code : String) : Referral :=
  { id := id, referrer_id := referrer_id, referred_id := referred_id,
    referral_code := referral_code, status := "pending_group_join",
    created_at := now, group_join_verified := false, rejoin_count := 0,
    reward_given := false, last_rejoin_date := none, group_join_date := none,
    updated_at := none }

/-- The `earnings_data` document appended at settlement. -/
def newEarning (now : Time) (referrer_id joined_id : String) (rid : Nat) : Earning :=
  { user_id := referrer_id, amount := REFERRAL_REWARD, type := "referral",
    description := "Referral reward from user " ++ joined_id,
    referral_id := rid, created_at := now }

/-- `check_referral_abuse`: abusive iff both users are on record, the referrer
is older than 24 hours and the candidate younger than 1 hour.  The 7-day /
24-hour "suspicious" tier only logs and falls through to `False`. -/
def check_referral_abuse (now : Time) (db : DB) (referrer_id referred_id : String) : Bool :=
  match findUser db referrer_id with
  | none => false
  | some referrer =>
    match findUser db referred_id with
    | none => false
    | some referred =>
      let referrer_age := now - referrer.created_at
      let referred_age := now - referred.created_at
      if referrer_age > hours 24 && referred_age < hours 1 then true
      else
        -- `referrer_age > days 7 && referred_age < hours 24`: logged only.
        false

/-- The referral-trail part of `check_user_was_existing_member`: the first
referral record for the candidate has `rejoin_count > 0` or is older than
1 hour.  When neither holds (or no record exists) the Python falls through to
the user-record check. -/
def referralAgeSignal (now : Time) (db : DB) (user_id : String) : Bool :=
  match findReferralByReferred db user_id with
  | some prev =>
    decide (0 < prev.rejoin_count) || decide (now - prev.created_at > hours 1)
  | none => false

/-- The user-record part of `check_user_was_existing_member`: the candidate's
user document is older than 1 hour. -/
def userAgeSignal (now : Time) (db : DB) (user_id : String) : Bool :=
  match findUser db user_id with
  | some u => decide (now - u.created_at > hours 1)
  | none => false

/-- `check_user_was_existing_member`: `False` unless currently a member;
otherwise the referral-trail signal, falling through to the user-age signal. -/
def check_user_was_existing_member (now : Time) (db : DB) (user_id : String)
    (resp : OracleResp) : Bool :=
  if check_group_membership resp then
    referralAgeSignal now db user_id || userAgeSignal now db user_id
  else false

/-- `detect_rejoin_attempt`: an existing member is always reported as a rejoin
(`True`); additionally, when their first referral record is `'verified'`, that
record is flipped to `'rejoined'` with its `rejoin_count` bumped. -/
def detect_rejoin_attempt (now : Time) (db : DB) (user_id : String)
    (resp : OracleResp) : Bool × DB :=
  if check_user_was_existing_member now db user_id resp then
    match findReferralByReferred db user_id with
    | some prev =>
      if prev.status == "verified" then
        (true, { db with referrals :=
                   updateFirst (referredPred user_id) (markRejoined now) db.referrals })
      else (true, db)
    | none => (true, db)
  else (false, db)

/-- Guard 4 of `process_referral`: only evaluated when a membership context was
passed (`if context:`); `none` models `context = None`. -/
def existingMemberGuard (now : Time) (db : DB) (referred_id : String)
    (ctx : Option OracleResp) : Bool :=
  match ctx with
  | none => false
  | some resp => check_user_was_existing_member now db referred_id resp

/-- Guard 6 of `process_referral`: the candidate already has a user document
created more than 1 hour ago. -/
def staleUserGuard (now : Time) (db : DB) (referred_id : String) : Bool :=
  match findUser db referred_id with
  | none => false
  | some u => decide (now - u.created_at > hours 1)

/-- `referrals_ref.add(referral_data)` with a fresh document id. -/
def insertReferral (now : Time) (db : DB)
    (referrer_id referred_id referral_code : String) : DB :=
  { db with
    referrals := db.referrals ++ [newReferral now db.nextId referrer_id referred_id referral_code],
    nextId := db.nextId + 1 }

/-- `process_referral` (the spec's `open`): the six sequential guards, then
creation of a `'pending_group_join'` referral.  Returns `(created?, state)`. -/
def process_referral (now : Time) (db : DB)
    (referrer_id referred_id referral_code : String) (ctx : Option OracleResp) :
    Bool × DB :=
  if referrer_id == referred_id then (false, db)
  else
    match findReferralByPair db referrer_id referred_id with
    | some _ =>
      (false, { db with referrals :=
                  updateFirst (pairPred referrer_id referred_id) (bumpRejoin now) db.referrals })
    | none =>
      match findReferralByReferred db referred_id with
      | some _ => (false, db)
      | none =>
        if existingMemberGuard now db referred_id ctx then (false, db)
        else if check_referral_abuse now db referrer_id referred_id then (false, db)
        else if staleUserGuard now db referred_id then (false, db)
        else (true, insertReferral now db referrer_id referred_id referral_code)

/-- `verify_group_join_and_reward` (the spec's `verifyAndSettle`).  Consumes
one oracle response per membership call (step 1, rejoin detection, guard-4
re-check).  Returns `(settled?, state, remaining oracle responses)`. -/
def verify_group_join_and_reward (now : Time) (db : DB) (user_id : String)
    (oracle : List OracleResp) : Bool × DB × List OracleResp :=
  let p0 := nextResp oracle
  if check_group_membership p0.1 then
    let p1 := nextResp p0.2
    let rj := detect_rejoin_attempt now db user_id p1.1
    if rj.1 then (false, rj.2, p1.2)
    else
      match findPendingReferral rj.2 user_id with
      | none => (false, rj.2, p1.2)
      | some rdoc =>
        let p2 := nextResp p1.2
        if check_user_was_existing_member now rj.2 user_id p2.1 then
          (false, { rj.2 with referrals :=
                      updateFirst (pendingPred user_id) (markExistingMember now) rj.2.referrals },
           p2.2)
        else
          let db2 := { rj.2 with referrals :=
                         updateFirst (pendingPred user_id) (markVerified now) rj.2.referrals }
          match findUser db2 rdoc.referrer_id with
          | none => (false, db2, p2.2)
          | some _ =>
            let db3 := { db2 with users :=
                           updateFirst (userPred rdoc.referrer_id) (creditReferrer now) db2.users }
            (true, { db3 with earnings :=
                       db3.earnings ++ [newEarning now rdoc.referrer_id user_id rdoc.id] },
             p2.2)
  else (false, db, p0.2)

/-- All referral rows for a candidate. -/
def referralsFor (db : DB) (referred_id : String) : List Referral :=
  db.referrals.filter (referredPred referred_id)

/-- Number of referral rows for a candidate. -/
def countFor (db : DB) (referred_id : String) : Nat :=
  (referralsFor db referred_id).length

/-- Number of referral rows for an exact (referrer, candidate) pair. -/
def pairCount (db : DB) (referrer_id referred_id : String) : Nat :=
  (db.referrals.filter (pairPred referrer_id referred_id)).length

/-- Number of earnings documents referencing a referral document id. -/
def earningsFor (db : DB) (rid : Nat) : Nat :=
  (db.earnings.filter (fun e => e.referral_id == rid)).length

/-! ## General query lemmas

Facts connecting `find?`-style limit-1 queries, `filter`-style row counts and
`updateFirst`-style document updates. -/

theorem find?_eq_none_of_filter_nil {α : Type} {q : α → Bool} {l : List α}
    (h : l.filter q = []) : l.find? q = none :=
  List.find?_eq_none.mpr (List.filter_eq_nil_iff.mp h)

theorem find?_of_filter_singleton {α : Type} {q : α → Bool} {a : α} :
    ∀ {l : List α}, l.filter q = [a] → l.find? q = some a := by
  intro l
  induction l with
  | nil => intro h; simp at h
  | cons x xs ih =>
    intro h
    cases hq : q x with
    | true =>
      rw [List.filter_cons_of_pos hq] at h
      have hx : x = a := (List.cons_eq_cons.mp h).1
      rw [List.find?_cons_of_pos xs hq, hx]
    | false =>
      rw [List.filter_cons_of_neg (by simp [hq])] at h
      rw [List.find?_cons_of_neg xs (by simp [hq])]
      exact ih h

theorem mem_and_pred_of_filter_singleton {α : Type} {q : α → Bool} {l : List α} {a : α}
    (h : l.filter q = [a]) : a ∈ l ∧ q a = true := by
  have ha : a ∈ l.filter q := by rw [h]; exact List.mem_singleton_self a
  exact List.mem_filter.mp ha

theorem eq_of_filter_singleton_of_pred {α : Type} {q : α → Bool} {l : List α} {a x : α}
    (h : l.filter q = [a]) (hx : x ∈ l) (hq : q x = true) : x = a := by
  have hmem : x ∈ l.filter q := List.mem_filter.mpr ⟨hx, hq⟩
  rw [h] at hmem
  exact List.mem_singleton.mp hmem

theorem find?_stronger_eq_none {α : Type} {p q : α → Bool} {l : List α} {a : α}
    (h : l.filter q = [a]) (himp : ∀ x, p x = true → q x = true)
    (ha : p a = false) : l.find? p = none := by
  apply List.find?_eq_none.mpr
  intro x hx hpx
  have hxa : x = a := eq_of_filter_singleton_of_pred h hx (himp x hpx)
  rw [hxa, ha] at hpx
  exact Bool.false_ne_true hpx

theorem find?_stronger_eq_some {α : Type} {p q : α → Bool} {a : α}
    (himp : ∀ x, p x = true → q x = true) (ha : p a = true) :
    ∀ {l : List α}, l.filter q = [a] → l.find? p = some a := by
  intro l
  induction l with
  | nil => intro h; simp at h
  | cons x xs ih =>
    intro h
    cases hq : q x with
    | true =>
      rw [List.filter_cons_of_pos hq] at h
      have hx : x = a := (List.cons_eq_cons.mp h).1
      rw [List.find?_cons_of_pos xs (by rw [hx]; exact ha), hx]
    | false =>
      have hp : p x = false := by
        cases hpx : p x with
        | true => exact absurd (himp x hpx) (by simp [hq])
        | false => rfl
      rw [List.filter_cons_of_neg (by simp [hq])] at h
      rw [List.find?_cons_of_neg xs (by simp [hp])]
      exact ih h

theorem any_stronger_of_filter_nil {α : Type} {q s : α → Bool} {l : List α}
    (h : l.filter q = []) : (l.any fun x => q x && s x) = false := by
  cases hany : l.any fun x => q x && s x with
  | false => rfl
  | true =>
    obtain ⟨x, hx, hqs⟩ := List.any_eq_true.mp hany
    obtain ⟨hq, _⟩ := Bool.and_eq_true_iff.mp hqs
    exact absurd hq (List.filter_eq_nil_iff.mp h x hx)

theorem any_stronger_of_filter_singleton {α : Type} {q s : α → Bool} {l : List α} {a : α}
    (h : l.filter q = [a]) : (l.any fun x => q x && s x) = s a := by
  cases hs : s a with
  | false =>
    cases hany : l.any fun x => q x && s x with
    | false => rfl
    | true =>
      obtain ⟨x, hx, hqs⟩ := List.any_eq_true.mp hany
      obtain ⟨hq, hsx⟩ := Bool.and_eq_true_iff.mp hqs
      rw [eq_of_filter_singleton_of_pred h hx hq, hs] at hsx
      exact absurd hsx Bool.false_ne_true
  | true =>
    obtain ⟨ha, hqa⟩ := mem_and_pred_of_filter_singleton h
    exact List.any_eq_true.mpr ⟨a, ha, by rw [hqa, hs]; rfl⟩

theorem updateFirst_append_of_none {α : Type} {p : α → Bool} {f : α → α} {l2 : List α} :
    ∀ {l1 : List α}, l1.find? p = none →
      updateFirst p f (l1 ++ l2) = l1 ++ updateFirst p f l2 := by
  intro l1
  induction l1 with
  | nil => intro _; rfl
  | cons x xs ih =>
    intro h
    have hx : p x = false := by
      have := List.find?_eq_none.mp h x (List.mem_cons_self x xs)
      cases hpx : p x with
      | true => exact absurd hpx this
      | false => rfl
    have hxs : xs.find? p = none := by
      apply List.find?_eq_none.mpr
      intro y hy
      exact List.find?_eq_none.mp h y (List.mem_cons_of_mem x hy)
    simp only [List.cons_append, updateFirst, hx, Bool.false_eq_true, if_false,
      List.append_eq]
    rw [ih hxs]

theorem filter_length_updateFirst {α : Type} {p q : α → Bool} {f : α → α}
    (hf : ∀ x, q (f x) = q x) :
    ∀ l : List α, ((updateFirst p f l).filter q).length = (l.filter q).length := by
  intro l
  induction l with
  | nil => rfl
  | cons x xs ih =>
    by_cases hp : p x = true
    · simp only [updateFirst, if_pos hp]
      rw [List.filter_cons, List.filter_cons, hf]
      cases q x <;> simp
    · simp only [updateFirst, if_neg hp]
      rw [List.filter_cons, List.filter_cons]
      cases q x <;> simp [ih]

/-- One `open` event of a call sequence (arguments of one `process_referral`
invocation). -/
structure OpenCall where
  now : Time
  referrer_id : String
  referred_id : String
  referral_code : String
  ctx : Option OracleResp
deriving DecidableEq

/-- Run a sequence of `open` calls, threading the ledger state. -/
def runOpens : List OpenCall → DB → DB
  | [], db => db
  | c :: cs, db =>
    runOpens cs (process_referral c.now db c.referrer_id c.referred_id c.referral_code c.ctx).2

theorem countFor_insertReferral_le (now : Time) (db : DB) (R X code C : String)
    (hnone : findReferralByReferred db X = none) :
    countFor (insertReferral now db R X code) C ≤ max (countFor db C) 1 := by
  unfold countFor referralsFor insertReferral
  simp only [List.filter_append]
  by_cases hXC : X = C
  · subst hXC
    have hnil : db.referrals.filter (referredPred X) = [] :=
      List.filter_eq_nil_iff.mpr (List.find?_eq_none.mp hnone)
    rw [hnil]
    simp [newReferral, referredPred, List.filter_cons]
  · have hpred : referredPred C (newReferral now db.nextId R X code) = false := by
      simp [newReferral, referredPred, hXC]
    simp only [List.filter_cons, hpred, Bool.false_eq_true, if_false, List.filter_nil,
      List.append_nil, List.length_append, List.length_nil, Nat.add_zero]
    exact le_max_left _ _

theorem countFor_process_referral_le (now : Time) (db : DB)
    (R X code C : String) (ctx : Option OracleResp) :
    countFor (process_referral now db R X code ctx).2 C ≤ max (countFor db C) 1 := by
  unfold process_referral
  split
  · exact le_max_left _ _
  · split
    · have hpres : ∀ r : Referral, referredPred C (bumpRejoin now r) = referredPred C r := by
        intro r; rfl
      show countFor _ C ≤ _
      unfold countFor referralsFor
      simp only
      rw [filter_length_updateFirst hpres]
      exact le_max_left _ _
    · split
      · exact le_max_left _ _
      · next hnone =>
        split
        · exact le_max_left _ _
        · split
          · exact le_max_left _ _
          · split
            · exact le_max_left _ _
            · exact countFor_insertReferral_le now db R X code C hnone

theorem countFor_runOpens_le (C : String) :
    ∀ (calls : List OpenCall) (db : DB), countFor db C ≤ 1 →
      countFor (runOpens calls db) C ≤ 1 := by
  intro calls
  induction calls with
  | nil => intro db h; exact h
  | cons c cs ih =>
    intro db h
    apply ih
    calc countFor (process_referral c.now db c.referrer_id c.referred_id c.referral_code c.ctx).2 C
        ≤ max (countFor db C) 1 := countFor_process_referral_le _ _ _ _ _ _ _
      _ ≤ 1 := by omega

theorem open_other_referrer_rejected (now : Time) (db : DB)
    (Rp C code : String) (ctx : Option OracleResp) (row : Referral)
    (hrow : referralsFor db C = [row]) (hne : Rp ≠ row.referrer_id) :
    process_referral now db Rp C code ctx = (false, db) := by
  by_cases hself : (Rp == C) = true
  · simp [process_referral, hself]
  · have hpair : findReferralByPair db Rp C = none := by
      unfold findReferralByPair
      apply find?_stronger_eq_none hrow
      · intro x hx
        exact (Bool.and_eq_true_iff.mp hx).1
      · have hb : (row.referrer_id == Rp) = false := by
          simp [Ne.symm hne]
        simp [pairPred, hb]
    have hother : findReferralByReferred db C = some row := by
      unfold findReferralByReferred
      exact find?_of_filter_singleton hrow
    simp [process_referral, hself, hpair, hother]

/-- One membership-verification event: the wall-clock time and the oracle's
answers to the (at most two, in the rejoin branch) membership calls. -/
structure VerifyEvent where
  now : Time
  m0 : OracleResp
  m1 : OracleResp
deriving DecidableEq

/-- Run a sequence of `verifyAndSettle` events for one candidate, threading
the ledger state and collecting each call's boolean result. -/
def runVerifies (user_id : String) : List VerifyEvent → DB → List Bool × DB
  | [], db => ([], db)
  | e :: es, db =>
    let r := verify_group_join_and_reward e.now db user_id [e.m0, e.m1]
    let rest := runVerifies user_id es r.2.1
    (r.1 :: rest.1, rest.2)

theorem existing_member_of_rejoin_count (now : Time) (db : DB) (C : String)
    (row : Referral) (hrow : referralsFor db C = [row]) (hrc : 0 < row.rejoin_count)
    (resp : OracleResp) (hresp : check_group_membership resp = true) :
    check_user_was_existing_member now db C resp = true := by
  have hfind : findReferralByReferred db C = some row := find?_of_filter_singleton hrow
  unfold check_user_was_existing_member referralAgeSignal
  rw [hresp, if_pos rfl, hfind]
  simp [hrc]

theorem verify_pending_rejoin_noop (now : Time) (db : DB) (C : String)
    (row : Referral) (hrow : referralsFor db C = [row])
    (hpending : row.status = "pending_group_join") (hrc : 0 < row.rejoin_count)
    (r0 r1 : OracleResp) (rest : List OracleResp)
    (h0 : check_group_membership r0 = true) (h1 : check_group_membership r1 = true) :
    verify_group_join_and_reward now db C (r0 :: r1 :: rest) = (false, db, rest) := by
  have hfind : findReferralByReferred db C = some row := find?_of_filter_singleton hrow
  have hex : check_user_was_existing_member now db C r1 = true :=
    existing_member_of_rejoin_count now db C row hrow hrc r1 h1
  have hdr : detect_rejoin_attempt now db C r1 = (true, db) := by
    unfold detect_rejoin_attempt
    rw [hex, if_pos rfl, hfind]
    simp [hpending]
  unfold verify_group_join_and_reward
  simp [nextResp, h0, hdr]

theorem process_referral_created_inv (now : Time) (db db1 : DB)
    (R C code : String) (ctx : Option OracleResp)
    (h : process_referral now db R C code ctx = (true, db1)) :
    (R == C) = false ∧ findReferralByPair db R C = none ∧
    findReferralByReferred db C = none ∧ db1 = insertReferral now db R C code := by
  unfold process_referral at h
  split at h
  · simp at h
  · next hself =>
    split at h
    · simp at h
    · next hpair =>
      split at h
      · simp at h
      · next hother =>
        split at h
        · simp at h
        · split at h
          · simp at h
          · split at h
            · simp at h
            · exact ⟨by simpa using hself, hpair, hother, (congrArg Prod.snd h).symm⟩

/-! ## Concrete states used by counterexamples and witnesses -/

/-- A freshly opened referral: referrer `"1"`, candidate `"2"`, created at
time 0, `pending_group_join`, `rejoin_count = 0`. -/
def refC1 : Referral := newReferral 0 0 "1" "2" "CP1"

/-- A ledger holding just `refC1` and, crucially, no user document at all for
referrer `"1"`. -/
def dbC1 : DB := { users := [], referrals := [refC1], earnings := [], nextId := 1 }

/-- An oracle that answers `'member'` to every membership call. -/
def memOracle : List OracleResp := [some "member", some "member", some "member"]

/-- The state after running settlement for candidate `"2"` on `dbC1`. -/
def settledDb : DB := (verify_group_join_and_reward 0 dbC1 "2" memOracle).2.1

/-- A ledger whose only referral row is `refC1` after a duplicate `open`:
still `pending_group_join` but with `rejoin_count = 1`. -/
def dbC5 : DB :=
  { users := [], referrals := [bumpRejoin 0 refC1], earnings := [], nextId := 1 }

/-! ## Claims -/

/-- C1: the claim says that when the referrer's user document is missing the
referral must still be unrewarded and unverified after `verifyAndSettle`.  The
code violates this: in `dbC1` a `pending_group_join` referral exists for
candidate `"2"` and no user document exists for its referrer `"1"`, yet after
the call the referral has `status = "verified"` and `reward_given = true`
(while the call itself reports failure and credits nobody). -/
theorem c1_missing_referrer_still_marks_verified :
    findPendingReferral dbC1 "2" = some refC1 ∧
    findUser dbC1 refC1.referrer_id = none ∧
    (verify_group_join_and_reward 0 dbC1 "2" memOracle).1 = false ∧
    (verify_group_join_and_reward 0 dbC1 "2" memOracle).2.1.referrals =
      [markVerified 0 refC1] ∧
    (markVerified 0 refC1).reward_given = true ∧
    (markVerified 0 refC1).status = "verified" := by
  decide

/-- C2: the claim asserts exactly one earnings document for every referral
that reaches `verified` with `reward_given = true` via `verifyAndSettle`.  On
`dbC1` (referrer's user document missing) the referral reaches exactly that
state yet zero earnings documents reference it; the second half of the claim
(a repeated call is a no-op that leaves the state unchanged) does hold on the
settled state. -/
theorem c2_settled_referral_with_no_earnings :
    settledDb.referrals = [markVerified 0 refC1] ∧
    (markVerified 0 refC1).status = "verified" ∧
    (markVerified 0 refC1).reward_given = true ∧
    earningsFor settledDb refC1.id = 0 ∧
    verify_group_join_and_reward 0 settledDb "2" [some "member", some "member"] =
      (false, settledDb, []) := by
  decide

/-- C6: no self-reward.  `open(A, A, code(A))` always returns `False` and
leaves the ledger completely unchanged, in every state, at every time, with or
without a membership context. -/
theorem c6_self_referral_rejected (now : Time) (db : DB) (A : String)
    (ctx : Option OracleResp) :
    process_referral now db A A (generate_referral_code A) ctx = (false, db) := by
  simp [process_referral]

/-- C10: a failing membership call (`none`) is treated as not-a-member, and a
`verifyAndSettle` whose first membership call fails returns `False` with the
ledger untouched. -/
theorem c10_oracle_failure_is_conservative :
    check_group_membership none = false ∧
    ∀ (now : Time) (db : DB) (user_id : String) (rest : List OracleResp),
      verify_group_join_and_reward now db user_id (none :: rest) =
        (false, db, rest) := by
  refine ⟨rfl, fun now db user_id rest => ?_⟩
  simp [verify_group_join_and_reward, nextResp, check_group_membership]

/-- C4: at-most-one-referrer.  From any state with at most one referral row
for candidate `C`, no sequence of `open` calls can ever produce a second row
for `C`; and when exactly one row for `C` exists, an `open` call by any
referrer other than that row's `referrer_id` returns `False` and leaves the
ledger entirely unchanged (no insertion). -/
theorem c4_at_most_one_referrer (C : String) (db : DB) :
    (countFor db C ≤ 1 → ∀ calls : List OpenCall, countFor (runOpens calls db) C ≤ 1) ∧
    (∀ (row : Referral) (Rp : String) (now : Time) (code : String) (ctx : Option OracleResp),
      referralsFor db C = [row] → Rp ≠ row.referrer_id →
      process_referral now db Rp C code ctx = (false, db)) := by
  constructor
  · intro h calls
    exact countFor_runOpens_le C calls db h
  · intro row Rp now code ctx hrow hne
    exact open_other_referrer_rejected now db Rp C code ctx row hrow hne

/-- Witness for C4 at a concrete ledger: one referral row `"1" → "2"`; a call
sequence keeps the row count for `"2"` at one, and an `open` by referrer `"3"`
is rejected without any state change. -/
theorem c4_witness :
    countFor (runOpens [⟨5, "7", "2", "CP7", none⟩, ⟨9, "1", "2", "CP1", none⟩] dbC1) "2" ≤ 1 ∧
    process_referral 5 dbC1 "3" "2" "CP3" none = (false, dbC1) :=
  ⟨(c4_at_most_one_referrer "2" dbC1).1 (by decide) _,
   (c4_at_most_one_referrer "2" dbC1).2 refC1 "3" 5 "CP3" none (by decide) (by decide)⟩

/-- C5: rejoin farming never pays.  If the single referral row for candidate
`C` is still `pending_group_join` with a positive `rejoin_count` (the state a
second identical `open` call leaves behind), then every later `verifyAndSettle`
event whose membership answers say `C` is a current member returns `False` and
leaves the ledger exactly unchanged — the referral never becomes `verified`
and no balance is ever credited.  Moreover the pre-existing-membership check
answers `true` for any member response, which is why rejoin detection fires
first. -/
theorem c5_pending_rejoin_never_rewards (db : DB) (C : String) (row : Referral)
    (hrow : referralsFor db C = [row])
    (hpending : row.status = "pending_group_join") (hrc : 0 < row.rejoin_count)
    (evs : List VerifyEvent)
    (hmem : ∀ e ∈ evs, check_group_membership e.m0 = true ∧ check_group_membership e.m1 = true) :
    runVerifies C evs db = (evs.map fun _ => false, db) ∧
    ∀ (now : Time) (resp : OracleResp), check_group_membership resp = true →
      check_user_was_existing_member now db C resp = true := by
  refine ⟨?_, fun now resp h => existing_member_of_rejoin_count now db C row hrow hrc resp h⟩
  induction evs with
  | nil => rfl
  | cons e es ih =>
    have he := hmem e (List.mem_cons_self e es)
    have hstep : verify_group_join_and_reward e.now db C [e.m0, e.m1] = (false, db, []) :=
      verify_pending_rejoin_noop e.now db C row hrow hpending hrc e.m0 e.m1 [] he.1 he.2
    have hrest := ih (fun x hx => hmem x (List.mem_cons_of_mem e hx))
    simp only [runVerifies, hstep, hrest, List.map_cons]

/-- Witness for C5: a ledger whose only referral row (`"1" → "2"`) is pending
with `rejoin_count = 1`; two member-confirmed verification events both return
`False` and the ledger is unchanged. -/
theorem c5_witness :
    runVerifies "2"
        [⟨3600, some "member", some "member"⟩, ⟨7200, some "administrator", some "creator"⟩]
        dbC5 =
      ([false, false], dbC5) ∧
    check_user_was_existing_member 3600 dbC5 "2" (some "member") = true := by
  have h := c5_pending_rejoin_never_rewards dbC5 "2" (bumpRejoin 0 refC1) (by decide)
    (by decide) (by decide)
    [⟨3600, some "member", some "member"⟩, ⟨7200, some "administrator", some "creator"⟩]
    (by decide)
  exact ⟨h.1, h.2 3600 (some "member") (by decide)⟩

/-- C3: the guard-4 branch of `verifyAndSettle`.  Whenever the first
membership call says member, rejoin detection reports no rejoin (leaving the
state alone), a `pending_group_join` referral exists for the candidate, and
the defense-in-depth re-check of pre-existing membership answers `true`, the
call returns `False` and the pending referral is updated via
`markExistingMember`: `status = "existing_member_no_reward"`,
`group_join_verified = true`, `reward_given = false` — with users and
earnings untouched. -/
theorem c3_existing_member_branch (now : Time) (db : DB) (user_id : String)
    (r0 r1 r2 : OracleResp) (rest : List OracleResp) (rdoc : Referral)
    (h0 : check_group_membership r0 = true)
    (hdr : detect_rejoin_attempt now db user_id r1 = (false, db))
    (hp : findPendingReferral db user_id = some rdoc)
    (hx : check_user_was_existing_member now db user_id r2 = true) :
    verify_group_join_and_reward now db user_id (r0 :: r1 :: r2 :: rest) =
      (false,
       { db with referrals := updateFirst (pendingPred user_id) (markExistingMember now) db.referrals },
       rest) ∧
    (markExistingMember now rdoc).status = "existing_member_no_reward" ∧
    (markExistingMember now rdoc).group_join_verified = true ∧
    (markExistingMember now rdoc).reward_given = false ∧
    ({ db with referrals := updateFirst (pendingPred user_id) (markExistingMember now) db.referrals }).users = db.users ∧
    ({ db with referrals := updateFirst (pendingPred user_id) (markExistingMember now) db.referrals }).earnings = db.earnings := by
  refine ⟨?_, rfl, rfl, rfl, rfl, rfl⟩
  unfold verify_group_join_and_reward
  simp [nextResp, h0, hdr, hp, hx]

/-- Witness for C3 on `dbC5`: the oracle fails during rejoin detection (so no
rejoin is reported) but answers member on the re-check, whose
`rejoin_count = 1` signal then routes the pending referral to
`existing_member_no_reward`. -/
theorem c3_witness :
    (check_group_membership (some "member") = true ∧
     detect_rejoin_attempt 5 dbC5 "2" none = (false, dbC5) ∧
     findPendingReferral dbC5 "2" = some (bumpRejoin 0 refC1) ∧
     check_user_was_existing_member 5 dbC5 "2" (some "member") = true) ∧
    verify_group_join_and_reward 5 dbC5 "2" [some "member", none, some "member"] =
      (false,
       { dbC5 with referrals := updateFirst (pendingPred "2") (markExistingMember 5) dbC5.referrals },
       []) := by
  refine ⟨⟨by decide, by decide, by decide, by decide⟩, ?_⟩
  exact (c3_existing_member_branch 5 dbC5 "2" (some "member") none (some "member") []
    (bumpRejoin 0 refC1) (by decide) (by decide) (by decide) (by decide)).1

/-- C7: idempotent open.  If an `open` call created a referral (returned
`True`), there was no row for the pair before and there is exactly one after;
a second call with identical (referrer, candidate) arguments returns `False`,
inserts nothing (row count and list length unchanged), and the pair's single
row gets `rejoin_count` bumped from 0 to 1, `last_rejoin_date` stamped with
the second call's time, and its status still `pending_group_join`. -/
theorem c7_idempotent_open (now1 now2 : Time) (db db1 : DB) (R C code : String)
    (ctx1 ctx2 : Option OracleResp)
    (h1 : process_referral now1 db R C code ctx1 = (true, db1)) :
    pairCount db R C = 0 ∧
    pairCount db1 R C = 1 ∧
    ∃ db2, process_referral now2 db1 R C code ctx2 = (false, db2) ∧
      db2.referrals.length = db1.referrals.length ∧
      pairCount db2 R C = 1 ∧
      ∃ r2, findReferralByPair db2 R C = some r2 ∧
        r2.rejoin_count = 1 ∧ r2.last_rejoin_date = some now2 ∧
        r2.status = "pending_group_join" := by
  obtain ⟨hself, hpair, hother, hdb1⟩ :=
    process_referral_created_inv now1 db db1 R C code ctx1 h1
  have hpairF : List.find? (pairPred R C) db.referrals = none := hpair
  have hfilnil : db.referrals.filter (pairPred R C) = [] :=
    List.filter_eq_nil_iff.mpr (List.find?_eq_none.mp hpairF)
  have hprednew : pairPred R C (newReferral now1 db.nextId R C code) = true := by
    simp [pairPred, newReferral]
  subst hdb1
  have hfind1 : findReferralByPair (insertReferral now1 db R C code) R C =
      some (newReferral now1 db.nextId R C code) := by
    unfold findReferralByPair insertReferral
    simp only
    rw [List.find?_append, hpairF]
    rw [List.find?_cons_of_pos [] hprednew]
    rfl
  have hupd : updateFirst (pairPred R C) (bumpRejoin now2)
      (insertReferral now1 db R C code).referrals =
      db.referrals ++ [bumpRejoin now2 (newReferral now1 db.nextId R C code)] := by
    unfold insertReferral
    simp only
    rw [updateFirst_append_of_none hpairF]
    simp [updateFirst, hprednew]
  have hstep2 : process_referral now2 (insertReferral now1 db R C code) R C code ctx2 =
      (false, { insertReferral now1 db R C code with
                  referrals := updateFirst (pairPred R C) (bumpRejoin now2)
                    (insertReferral now1 db R C code).referrals }) := by
    simp [process_referral, hself, hfind1]
  refine ⟨?_, ?_, ?_⟩
  · unfold pairCount
    rw [hfilnil]
    rfl
  · unfold pairCount insertReferral
    simp only
    rw [List.filter_append, hfilnil]
    simp [List.filter_cons, hprednew]
  · refine ⟨_, hstep2, ?_, ?_, bumpRejoin now2 (newReferral now1 db.nextId R C code),
      ?_, rfl, rfl, rfl⟩
    · show (updateFirst (pairPred R C) (bumpRejoin now2) _).length = _
      rw [hupd]
      unfold insertReferral
      simp
    · unfold pairCount
      show (List.filter (pairPred R C) (updateFirst (pairPred R C) (bumpRejoin now2) _)).length = 1
      rw [hupd, List.filter_append, hfilnil]
      have : pairPred R C (bumpRejoin now2 (newReferral now1 db.nextId R C code)) = true :=
        hprednew
      simp [List.filter_cons, this]
    · unfold findReferralByPair
      show List.find? (pairPred R C) (updateFirst (pairPred R C) (bumpRejoin now2) _) = _
      rw [hupd, List.find?_append, hpairF]
      have : pairPred R C (bumpRejoin now2 (newReferral now1 db.nextId R C code)) = true :=
        hprednew
      rw [List.find?_cons_of_pos [] this]
      rfl

/-- An empty ledger. -/
def emptyDB : DB := { users := [], referrals := [], earnings := [], nextId := 0 }

/-- Witness for C7: on the empty ledger, `open("1","2")` creates, and the
conclusions of the idempotence theorem hold for a repeat call at time 5. -/
theorem c7_witness :
    process_referral 0 emptyDB "1" "2" "CP1" none =
      (true, (process_referral 0 emptyDB "1" "2" "CP1" none).2) ∧
    (pairCount emptyDB "1" "2" = 0 ∧
     pairCount (process_referral 0 emptyDB "1" "2" "CP1" none).2 "1" "2" = 1 ∧
     ∃ db2, process_referral 5 (process_referral 0 emptyDB "1" "2" "CP1" none).2 "1" "2" "CP1" none =
         (false, db2) ∧
       db2.referrals.length = (process_referral 0 emptyDB "1" "2" "CP1" none).2.referrals.length ∧
       pairCount db2 "1" "2" = 1 ∧
       ∃ r2, findReferralByPair db2 "1" "2" = some r2 ∧
         r2.rejoin_count = 1 ∧ r2.last_rejoin_date = some 5 ∧
         r2.status = "pending_group_join") :=
  ⟨by decide,
   c7_idempotent_open 0 5 emptyDB (process_referral 0 emptyDB "1" "2" "CP1" none).2
     "1" "2" "CP1" none none (by decide)⟩

/-- C8, part of the statement's "reports abusive ... open rejects": with both
user documents on record, referrer older than 24 hours and candidate younger
than 1 hour, `check_referral_abuse` answers `true`; and when guards 1–4 pass,
`open` returns `False` with the ledger unchanged.  The "suspicious" tier
(referrer older than 7 days, candidate younger than 24 hours but not younger
than 1 hour) leaves `check_referral_abuse` at `false`: it is logged only and
never blocks by itself. -/
theorem c8_abuse_pattern (now : Time) (db : DB) (R C : String) (ru cu : User)
    (hru : findUser db R = some ru) (hcu : findUser db C = some cu) :
    (now - ru.created_at > hours 24 → now - cu.created_at < hours 1 →
      check_referral_abuse now db R C = true ∧
      ∀ (code : String) (ctx : Option OracleResp), R ≠ C →
        findReferralByPair db R C = none → findReferralByReferred db C = none →
        existingMemberGuard now db C ctx = false →
        process_referral now db R C code ctx = (false, db)) ∧
    (now - ru.created_at > days 7 → now - cu.created_at < hours 24 →
      ¬(now - cu.created_at < hours 1) →
      check_referral_abuse now db R C = false) := by
  constructor
  · intro h24 h1
    have habuse : check_referral_abuse now db R C = true := by
      unfold check_referral_abuse
      rw [hru, hcu]
      simp [h24, h1]
    refine ⟨habuse, fun code ctx hRC hpair hother hctx => ?_⟩
    have hself : (R == C) = false := by simp [hRC]
    simp [process_referral, hself, hpair, hother, hctx, habuse]
  · intro _ _ hnot1
    unfold check_referral_abuse
    rw [hru, hcu]
    simp [hnot1]

/-- Referrer on record since time 0. -/
def ruW : User :=
  { telegram_id := "1", balance := 0, total_earnings := 0, total_referrals := 0,
    referral_code := "CP1", created_at := 0, updated_at := none }

/-- Candidate created 30 minutes before time 360000 (100 hours). -/
def cuA : User :=
  { telegram_id := "2", balance := 0, total_earnings := 0, total_referrals := 0,
    referral_code := "CP2", created_at := 358200, updated_at := none }

/-- Candidate created 2 hours before time 691200 (8 days). -/
def cuB : User :=
  { telegram_id := "2", balance := 0, total_earnings := 0, total_referrals := 0,
    referral_code := "CP2", created_at := 684000, updated_at := none }

/-- Ledger for the hard-reject abuse scenario. -/
def dbA : DB := { users := [ruW, cuA], referrals := [], earnings := [], nextId := 0 }

/-- Ledger for the suspicious-only scenario. -/
def dbB : DB := { users := [ruW, cuB], referrals := [], earnings := [], nextId := 0 }

/-- Witness for C8: at time 360000 the 100-hour-old referrer referring the
30-minute-old candidate is hard-rejected with no referral created; at time
691200 the 8-day-old referrer referring a 2-hour-old candidate is not flagged
by the abuse check. -/
theorem c8_witness :
    (check_referral_abuse 360000 dbA "1" "2" = true ∧
     process_referral 360000 dbA "1" "2" "CP1" none = (false, dbA)) ∧
    check_referral_abuse 691200 dbB "1" "2" = false := by
  have hA := (c8_abuse_pattern 360000 dbA "1" "2" ruW cuA (by decide) (by decide)).1
    (by decide) (by decide)
  have hB := (c8_abuse_pattern 691200 dbB "1" "2" ruW cuB (by decide) (by decide)).2
    (by decide) (by decide) (by decide)
  exact ⟨⟨hA.1, hA.2 "CP1" none (by decide) (by decide) (by decide) (by decide)⟩, hB⟩

/-- The claim's decision tree for the pre-existing-membership check, written
from the claim's words for refinement comparison: false if not currently a
member; else true if ANY prior referral for the candidate has
`rejoin_count > 0`; else true if a prior referral exists whose `created_at`
is older than 1 hour; else true if the candidate's user record is older than
1 hour; else false. -/
def specExistingMember (now : Time) (db : DB) (user_id : String)
    (resp : OracleResp) : Bool :=
  if check_group_membership resp then
    if db.referrals.any fun r => referredPred user_id r && decide (0 < r.rejoin_count) then
      true
    else if db.referrals.any fun r => referredPred user_id r && decide (now - r.created_at > hours 1) then
      true
    else
      match findUser db user_id with
      | some u => decide (now - u.created_at > hours 1)
      | none => false
  else false

/-- C9: on every state respecting the at-most-one-row-per-candidate invariant
(which all reachable states do, by the C4 argument), the code's
`check_user_was_existing_member` computes exactly the claim's decision tree. -/
theorem c9_existing_member_check_exact (now : Time) (db : DB) (user_id : String)
    (resp : OracleResp) (h : countFor db user_id ≤ 1) :
    check_user_was_existing_member now db user_id resp =
      specExistingMember now db user_id resp := by
  unfold check_user_was_existing_member specExistingMember referralAgeSignal userAgeSignal
  cases hm : check_group_membership resp with
  | false => simp
  | true =>
    simp only [if_pos rfl, if_true]
    have hcases : referralsFor db user_id = [] ∨ ∃ row, referralsFor db user_id = [row] := by
      unfold countFor at h
      cases hl : referralsFor db user_id with
      | nil => exact Or.inl rfl
      | cons a t =>
        cases t with
        | nil => exact Or.inr ⟨a, rfl⟩
        | cons b t2 => rw [hl] at h; simp at h
    rcases hcases with hnil | ⟨row, hone⟩
    · have hfnone : findReferralByReferred db user_id = none := by
        unfold findReferralByReferred
        exact find?_eq_none_of_filter_nil hnil
      have ha1 : (db.referrals.any fun r => referredPred user_id r && decide (0 < r.rejoin_count)) = false :=
        any_stronger_of_filter_nil hnil
      have ha2 : (db.referrals.any fun r => referredPred user_id r && decide (now - r.created_at > hours 1)) = false :=
        any_stronger_of_filter_nil hnil
      rw [hfnone, ha1, ha2]
      simp
    · have hfsome : findReferralByReferred db user_id = some row := by
        unfold findReferralByReferred
        exact find?_of_filter_singleton hone
      have ha1 : (db.referrals.any fun r => referredPred user_id r && decide (0 < r.rejoin_count)) =
          decide (0 < row.rejoin_count) :=
        any_stronger_of_filter_singleton hone
      have ha2 : (db.referrals.any fun r => referredPred user_id r && decide (now - r.created_at > hours 1)) =
          decide (now - row.created_at > hours 1) :=
        any_stronger_of_filter_singleton hone
      rw [hfsome, ha1, ha2]
      cases h1 : decide (0 < row.rejoin_count) <;>
        cases h2 : decide (now - row.created_at > hours 1) <;>
          cases hu : findUser db user_id <;> simp [hu, h1, h2]

/-- Witness for C9 on `dbC5` (one referral row for `"2"`, `rejoin_count = 1`)
with a member response: both computations agree (both `true` here). -/
theorem c9_witness :
    countFor dbC5 "2" ≤ 1 ∧
    check_user_was_existing_member 7200 dbC5 "2" (some "member") =
      specExistingMember 7200 dbC5 "2" (some "member") :=
  ⟨by decide, c9_existing_member_check_exact 7200 dbC5 "2" (some "member") (by decide)⟩

end CashBot
